import Mathlib

/-!
Shallow embedding of the multi-agent coordination core in
`interpreter/integrations/agent_mail.py` (classes `AgentMail` and `Beads`),
together with theorems settling the specification claims about it.

Modelling conventions:
* timestamps (`datetime.utcnow()`) are natural numbers; `timedelta(seconds=n)`
  is addition of `n`;
* Python dicts (keyed, insertion ordered, assignment overwrites in place)
  are association lists with `assocLookup` / `assocInsert`;
* `uuid.uuid4()` / hash-based id generation is modelled by passing the freshly
  generated id as an explicit argument (the source generates a new value on
  every call, so distinct calls receive distinct ids);
* `raise ValueError("CONFLICT: ...")` in `reserve_files` is the `Except.error`
  branch carrying a `ConflictError` record with the data interpolated into the
  message (blocking agent name and its path set); the state component of the
  result is unchanged in that branch, as the Python `raise` happens before any
  insertion;
* Python truthiness is modelled faithfully: `None` and `""` are falsy for
  optional strings, enum members and `datetime` values are always truthy.
-/

/-- UTC timestamps, as produced by `datetime.utcnow()`, modelled as naturals. -/
abbrev Timestamp := Nat

/-- Status of file reservation (`ReservationStatus` in the source). -/
inductive ReservationStatus where
  | active
  | expired
  | released
deriving DecidableEq, Repr

/-- Status of a Beads issue (`IssueStatus` in the source). -/
inductive IssueStatus where
  | backlog
  | ready
  | in_progress
  | done
  | blocked
deriving DecidableEq, Repr

/-- Represents an agent identity (`Agent` dataclass). -/
structure Agent where
  id : String
  name : String
  project_key : String
  program : String
  model : String
  capabilities : List String
  registered_at : Timestamp
  last_active : Timestamp
deriving DecidableEq, Repr

/-- Represents a message between agents (`Message` dataclass). -/
structure Message where
  id : String
  project_key : String
  sender : String
  recipient : String
  subject : String
  body : String
  thread_id : Option String
  created_at : Timestamp
  read : Bool
deriving DecidableEq, Repr

/-- Represents a file reservation / lease (`FileReservation` dataclass). -/
structure FileReservation where
  id : String
  project_key : String
  agent_name : String
  paths : List String
  exclusive : Bool
  status : ReservationStatus
  created_at : Timestamp
  expires_at : Timestamp
  ttl_seconds : Nat
deriving DecidableEq, Repr

/-- Represents a Beads issue (`Issue` dataclass). -/
structure Issue where
  id : String
  title : String
  description : String := ""
  status : IssueStatus := IssueStatus.backlog
  priority : String := "medium"
  parent_id : Option String := none
  blocking : List String := []
  blocked_by : List String := []
  assignee : Option String := none
  created_at : Timestamp := 0
  updated_at : Timestamp := 0
deriving DecidableEq, Repr

/-- The data carried by the `ValueError("CONFLICT: ...")` raised by
`reserve_files`: the blocking agent's name and its reserved path set, which
the source interpolates into the message string. -/
structure ConflictError where
  agent_name : String
  paths : List String
deriving DecidableEq, Repr

/-- Lookup in a Python dict modelled as an association list: the value of the
first entry with the given key. -/
def assocLookup {α : Type} (l : List (String × α)) (k : String) : Option α :=
  match l with
  | [] => none
  | p :: rest => if p.1 = k then some p.2 else assocLookup rest k

/-- Assignment `d[k] = v` on a Python dict modelled as an association list:
overwrite the entry in place if the key is present, else append at the end. -/
def assocInsert {α : Type} (l : List (String × α)) (k : String) (v : α) :
    List (String × α) :=
  match l with
  | [] => [(k, v)]
  | p :: rest => if p.1 = k then (k, v) :: rest else p :: assocInsert rest k v

/-- In-memory state of an `AgentMail` instance: `self.agents` (dict keyed by
agent name), `self.messages` (dict keyed by recipient name), and
`self.reservations` (dict keyed by reservation id, kept here as the list of
its values in insertion order). The SQLite mirror is write-only in the source
and carries no behaviour, so it is not modelled. -/
structure MailState where
  agents : List (String × Agent)
  messages : List (String × List Message)
  reservations : List FileReservation
deriving DecidableEq, Repr

/-- Embedding of `AgentMail.register_agent`. The freshly generated `str(uuid.uuid4())[:12]`
is the explicit `newId` argument and `datetime.utcnow()` is `now`. Note that
the source always constructs a brand-new `Agent` (fresh id, fresh
`registered_at` and `last_active`) and overwrites `self.agents[name]` with it;
`capabilities or []` maps `None` and the (falsy) empty list alike to `[]`. -/
def register_agent (st : MailState) (newId : String) (now : Timestamp)
    (name project_key program model : String)
    (capabilities : Option (List String)) : Agent × MailState :=
  let agent : Agent :=
    { id := newId, name := name, project_key := project_key,
      program := program, model := model,
      capabilities := capabilities.getD [],
      registered_at := now, last_active := now }
  let agents := assocInsert st.agents name agent
  let messages :=
    if (assocLookup st.messages name).isSome then st.messages
    else st.messages ++ [(name, ([] : List Message))]
  (agent, { st with agents := agents, messages := messages })

/-- Embedding of `AgentMail.send_message`. The two fresh uuids drawn by the source (the
message id, and the default thread id when the caller passes no truthy
`thread_id`) are the explicit arguments `newMsgId` and `newThreadId`.
`thread_id or str(uuid.uuid4())[:12]` uses Python truthiness: `None` and the
empty string both fall through to the fresh id. -/
def send_message (st : MailState) (newMsgId newThreadId : String)
    (now : Timestamp) (project_key sender recipient subject body : String)
    (thread_id : Option String) : Message × MailState :=
  let tid :=
    match thread_id with
    | some t => if t = "" then newThreadId else t
    | none => newThreadId
  let message : Message :=
    { id := newMsgId, project_key := project_key, sender := sender,
      recipient := recipient, subject := subject, body := body,
      thread_id := some tid, created_at := now, read := false }
  let inbox := (assocLookup st.messages recipient).getD []
  (message,
    { st with messages := assocInsert st.messages recipient (inbox ++ [message]) })

/-- The inbox read `self.messages.get(agent_name, [])`. -/
def inboxOf (st : MailState) (agent_name : String) : List Message :=
  (assocLookup st.messages agent_name).getD []

/-- One step of the stable descending-by-`created_at` sort used to model
Python's `sorted(inbox, key=lambda m: m.created_at, reverse=True)`: insert `m`
in front of the first element whose key is less than or equal to `m`'s key.
Elements skipped over have strictly larger keys, so equal-key elements keep
their original relative order. -/
def insertDesc (m : Message) : List Message → List Message
  | [] => [m]
  | y :: ys =>
    if y.created_at ≤ m.created_at then m :: y :: ys else y :: insertDesc m ys

/-- Stable descending sort by `created_at`. A stable sort under a total key
order has a unique result, so this insertion sort agrees with Python's
`sorted(..., reverse=True)`. -/
def sortDesc : List Message → List Message
  | [] => []
  | x :: xs => insertDesc x (sortDesc xs)

/-- Embedding of `AgentMail.fetch_inbox`. Here `if since_ts:` is truthy for every `datetime`
value, so filtering happens exactly when a `since_ts` is supplied. -/
def fetch_inbox (st : MailState) (agent_name : String)
    (since_ts : Option Timestamp) : List Message :=
  let inbox := inboxOf st agent_name
  let inbox2 :=
    match since_ts with
    | some t => inbox.filter (fun m => decide (t ≤ m.created_at))
    | none => inbox
  sortDesc inbox2

/-- The path-overlap test of `reserve_files`: some requested path and some
reserved path are related by `str.startswith` in either direction. Python's
`a.startswith(b)` is true iff `b`'s characters are an initial segment of
`a`'s, which is `b.data.isPrefixOf a.data` on the underlying character
lists. -/
def pathsOverlap (paths resPaths : List String) : Bool :=
  paths.any fun path =>
    resPaths.any fun p =>
      List.isPrefixOf path.data p.data || List.isPrefixOf p.data path.data

/-- The conflict scan at the top of `AgentMail.reserve_files`: the first
reservation (in dict insertion order) whose status is `active`, whose path
set overlaps the requested paths, and whose holder is a different agent.
Neither `expires_at`, nor the `exclusive` flags, nor `project_key` take part
in the test. -/
def findConflict (reservations : List FileReservation) (agent_name : String)
    (paths : List String) : Option FileReservation :=
  reservations.find? fun res =>
    decide (res.status = ReservationStatus.active) &&
      pathsOverlap paths res.paths &&
      decide (res.agent_name ≠ agent_name)

/-- Embedding of `AgentMail.reserve_files`. On conflict the source raises before touching
`self.reservations`, so the error branch returns the state unchanged;
otherwise a new active reservation with `expires_at = now + ttl_seconds` is
appended to the store and returned. -/
def reserve_files (st : MailState) (newId : String) (now : Timestamp)
    (project_key agent_name : String) (paths : List String)
    (exclusive : Bool) (ttl_seconds : Nat) :
    Except ConflictError FileReservation × MailState :=
  match findConflict st.reservations agent_name paths with
  | some res =>
    (Except.error { agent_name := res.agent_name, paths := res.paths }, st)
  | none =>
    let reservation : FileReservation :=
      { id := newId, project_key := project_key, agent_name := agent_name,
        paths := paths, exclusive := exclusive,
        status := ReservationStatus.active, created_at := now,
        expires_at := now + ttl_seconds, ttl_seconds := ttl_seconds }
    (Except.ok reservation,
      { st with reservations := st.reservations ++ [reservation] })

/-- Embedding of `AgentMail.release_reservation`: flip the named reservation to `released`
if present, reporting whether it was found. -/
def release_reservation (st : MailState) (reservation_id : String) :
    Bool × MailState :=
  if st.reservations.any (fun r => decide (r.id = reservation_id)) then
    (true,
      { st with
        reservations := st.reservations.map fun r =>
          if r.id = reservation_id then
            { r with status := ReservationStatus.released }
          else r })
  else (false, st)

/-- Embedding of `AgentMail.get_active_reservations`: collect the reservations of the
given project that are active and unexpired (`expires_at > now`), and as a
side effect flip every matching-project active reservation whose expiry has
passed to `expired` (lazy expiry). -/
def get_active_reservations (st : MailState) (now : Timestamp)
    (project_key : String) : List FileReservation × MailState :=
  let active := st.reservations.filter fun res =>
    decide (res.project_key = project_key) &&
      decide (res.status = ReservationStatus.active) &&
      decide (now < res.expires_at)
  let swept := st.reservations.map fun res =>
    if res.project_key = project_key ∧ res.status = ReservationStatus.active ∧
        ¬ now < res.expires_at then
      { res with status := ReservationStatus.expired }
    else res
  (active, { st with reservations := swept })

/-- In-memory state of a `Beads` instance: `self.issues`, a dict keyed by
issue id. The append-only JSONL log and SQLite cache are write-only in the
source, so they are not modelled. -/
structure BeadsState where
  issues : List (String × Issue)
deriving DecidableEq, Repr

/-- The body of the loop in `Beads.create_issue` that maintains the reverse
edges: if the referenced issue exists, append the new issue's id `cid` to its
`blocked_by` list, else do nothing. -/
def createStep (issues : List (String × Issue)) (cid bid : String) :
    List (String × Issue) :=
  if (assocLookup issues bid).isSome then
    issues.map fun p =>
      if p.1 = bid then (p.1, { p.2 with blocked_by := p.2.blocked_by ++ [cid] })
      else p
  else issues

/-- Embedding of `Beads.create_issue`. The hash-derived id
`f"bd-{sha256(title+now)[:6]}"` is the explicit `newId` argument. The new
issue starts in status `backlog` with the dataclass defaults; for every id in
`blocking` that already exists in the store, the new issue's id is appended
to that issue's `blocked_by`; then the new issue itself is stored.
`blocking or []` maps `None` and the falsy empty list alike to `[]`. -/
def create_issue (st : BeadsState) (newId : String) (now : Timestamp)
    (title : String) (description : String) (priority : String)
    (parent_id : Option String) (blocking : Option (List String)) :
    Issue × BeadsState :=
  let issue : Issue :=
    { id := newId, title := title, description := description,
      priority := priority, parent_id := parent_id,
      blocking := blocking.getD [], created_at := now, updated_at := now }
  let issues1 := issue.blocking.foldl (fun acc bid => createStep acc issue.id bid)
    st.issues
  (issue, { issues := assocInsert issues1 issue.id issue })

/-- Python truthiness of an optional string: `None` and `""` are falsy,
every other string is truthy. -/
def strTruthy (o : Option String) : Bool :=
  match o with
  | some s => decide (s ≠ "")
  | none => false

/-- The field mutations of `Beads.update_issue` on a found issue: the source
applies `if status:` / `if assignee:` / `if priority:` — Python truthiness,
under which enum members are always truthy but `None` and the empty string
are falsy — then stamps `updated_at = datetime.utcnow()`. -/
def appliedUpdate (issue : Issue) (now : Timestamp)
    (status : Option IssueStatus) (assignee : Option String)
    (priority : Option String) : Issue :=
  let issue1 :=
    match status with
    | some s => { issue with status := s }
    | none => issue
  let issue2 :=
    match assignee with
    | some a => if a = "" then issue1 else { issue1 with assignee := some a }
    | none => issue1
  let issue3 :=
    match priority with
    | some p => if p = "" then issue2 else { issue2 with priority := p }
    | none => issue2
  { issue3 with updated_at := now }

/-- Embedding of `Beads.update_issue`. Unknown ids return `None` with the store untouched;
for a known id the mutations of `appliedUpdate` are applied in place and the
mutated issue is returned. -/
def update_issue (st : BeadsState) (now : Timestamp) (issue_id : String)
    (status : Option IssueStatus) (assignee : Option String)
    (priority : Option String) : Option Issue × BeadsState :=
  match assocLookup st.issues issue_id with
  | none => (none, st)
  | some issue =>
    let issue4 := appliedUpdate issue now status assignee priority
    (some issue4, { issues := assocInsert st.issues issue_id issue4 })

/-- Embedding of `Beads.get_ready_issues`: an issue is ready to work on when its status is
`ready` and either it has no `blocked_by` entries, or every `blocked_by` id
that exists in the store refers to a `done` issue (the generator filters with
`if bid in self.issues`, so unknown blocker ids are skipped, i.e. vacuously
satisfied). -/
def get_ready_issues (st : BeadsState) : List Issue :=
  (st.issues.map Prod.snd).filter fun issue =>
    decide (issue.status = IssueStatus.ready) &&
      (if issue.blocked_by.isEmpty then true
       else issue.blocked_by.all fun bid =>
         match assocLookup st.issues bid with
         | some b => decide (b.status = IssueStatus.done)
         | none => true)

deriving instance DecidableEq for Except

/-- An empty `AgentMail` state, as built by `AgentMail.__init__`. -/
def st0 : MailState := { agents := [], messages := [], reservations := [] }

/-- A concrete active exclusive reservation held by agent `alice`. -/
def resW : FileReservation :=
  { id := "r1", project_key := "p", agent_name := "alice",
    paths := ["/src/a.py"], exclusive := true,
    status := ReservationStatus.active, created_at := 0, expires_at := 3600,
    ttl_seconds := 3600 }

/-- A mail state in which `alice` holds the reservation `resW`. -/
def stW1 : MailState := { agents := [], messages := [], reservations := [resW] }

/-- A concrete active but non-exclusive reservation in project `q`. -/
def resX : FileReservation := { resW with exclusive := false, project_key := "q" }

/-- A mail state in which `alice` holds the non-exclusive reservation `resX`. -/
def stW10 : MailState :=
  { agents := [], messages := [], reservations := [resX] }

/-- A concrete reservation whose expiry time has already passed at time 5. -/
def resP : FileReservation := { resW with expires_at := 5, ttl_seconds := 5 }

/-- A mail state holding only the already-expired reservation `resP`. -/
def stW2 : MailState := { agents := [], messages := [], reservations := [resP] }

/-- A concrete issue used as a blocker. -/
def issueB : Issue := { id := "b1", title := "blocker", created_at := 0 }

/-- A Beads state whose store holds exactly `issueB`. -/
def stB7 : BeadsState := { issues := [("b1", issueB)] }

/-- A concrete issue in status `ready` with no blockers. -/
def issueR : Issue :=
  { id := "i1", title := "work", status := IssueStatus.ready, created_at := 0 }

/-- A Beads state whose store holds exactly `issueR`. -/
def stB8 : BeadsState := { issues := [("i1", issueR)] }


theorem assocLookup_assocInsert_self {α : Type} (l : List (String × α))
    (k : String) (v : α) : assocLookup (assocInsert l k v) k = some v := by
  induction l with
  | nil => simp [assocInsert, assocLookup]
  | cons p rest ih =>
    by_cases h : p.1 = k
    · simp [assocInsert, assocLookup, h]
    · simp [assocInsert, assocLookup, h, ih]

theorem assocLookup_assocInsert_ne {α : Type} (l : List (String × α))
    (k k2 : String) (v : α) (h : k2 ≠ k) :
    assocLookup (assocInsert l k v) k2 = assocLookup l k2 := by
  induction l with
  | nil => simp [assocInsert, assocLookup, Ne.symm h]
  | cons p rest ih =>
    by_cases hp : p.1 = k
    · simp [assocInsert, assocLookup, hp, Ne.symm h, h]
    · by_cases hp2 : p.1 = k2
      · simp [assocInsert, assocLookup, hp, hp2, h]
      · simp [assocInsert, assocLookup, hp, hp2, ih]

theorem perm_insertDesc (m : Message) (l : List Message) :
    List.Perm (insertDesc m l) (m :: l) := by
  induction l with
  | nil => exact List.Perm.refl _
  | cons y ys ih =>
    by_cases h : y.created_at ≤ m.created_at
    · rw [insertDesc, if_pos h]
    · rw [insertDesc, if_neg h]
      exact (ih.cons y).trans (List.Perm.swap m y ys)

theorem perm_sortDesc (l : List Message) : List.Perm (sortDesc l) l := by
  induction l with
  | nil => exact List.Perm.refl _
  | cons x xs ih => exact (perm_insertDesc x (sortDesc xs)).trans (ih.cons x)

theorem mem_insertDesc (a m : Message) (l : List Message) :
    a ∈ insertDesc m l ↔ a = m ∨ a ∈ l := by
  rw [(perm_insertDesc m l).mem_iff, List.mem_cons]

theorem pairwise_insertDesc (m : Message) (l : List Message)
    (h : l.Pairwise fun x y => y.created_at ≤ x.created_at) :
    (insertDesc m l).Pairwise fun x y => y.created_at ≤ x.created_at := by
  induction l with
  | nil => simp [insertDesc]
  | cons y ys ih =>
    rcases List.pairwise_cons.mp h with ⟨hy, hys⟩
    by_cases hc : y.created_at ≤ m.created_at
    · rw [insertDesc, if_pos hc]
      refine List.pairwise_cons.mpr ⟨?_, h⟩
      intro z hz
      rcases List.mem_cons.mp hz with hz | hz
      · exact hz ▸ hc
      · exact le_trans (hy z hz) hc
    · rw [insertDesc, if_neg hc]
      refine List.pairwise_cons.mpr ⟨?_, ih hys⟩
      intro z hz
      rcases (mem_insertDesc z m ys).mp hz with hz | hz
      · exact hz ▸ le_of_lt (lt_of_not_le hc)
      · exact hy z hz

theorem pairwise_sortDesc (l : List Message) :
    (sortDesc l).Pairwise fun x y => y.created_at ≤ x.created_at := by
  induction l with
  | nil => simp [sortDesc]
  | cons x xs ih => exact pairwise_insertDesc x (sortDesc xs) ih

theorem filter_insertDesc (m : Message) (t : Timestamp) (l : List Message) :
    (insertDesc m l).filter (fun x => decide (x.created_at = t)) =
      (m :: l).filter (fun x => decide (x.created_at = t)) := by
  induction l with
  | nil => rfl
  | cons y ys ih =>
    by_cases hc : y.created_at ≤ m.created_at
    · rw [insertDesc, if_pos hc]
    · rw [insertDesc, if_neg hc]
      by_cases hm : m.created_at = t
      · have hy : ¬ y.created_at = t := fun hh =>
          hc (le_of_eq (hh.trans hm.symm))
        simp [List.filter_cons, hm, hy, ih]
      · by_cases hy : y.created_at = t
        · simp [List.filter_cons, hm, hy, ih]
        · simp [List.filter_cons, hm, hy, ih]

theorem filter_sortDesc (t : Timestamp) (l : List Message) :
    (sortDesc l).filter (fun x => decide (x.created_at = t)) =
      l.filter (fun x => decide (x.created_at = t)) := by
  induction l with
  | nil => rfl
  | cons x xs ih =>
    rw [sortDesc, filter_insertDesc]
    simp only [List.filter_cons, ih]

theorem findConflict_eq_some_of (l : List FileReservation) (B : String)
    (P : List String) (res : FileReservation) (hmem : res ∈ l)
    (hactive : res.status = ReservationStatus.active)
    (hov : pathsOverlap P res.paths = true) (hne : res.agent_name ≠ B) :
    ∃ r, findConflict l B P = some r ∧ r ∈ l ∧
      r.status = ReservationStatus.active ∧ pathsOverlap P r.paths = true ∧
      r.agent_name ≠ B := by
  have hpred : (fun r : FileReservation =>
      decide (r.status = ReservationStatus.active) &&
        pathsOverlap P r.paths && decide (r.agent_name ≠ B)) res = true := by
    simp [hactive, hov, hne]
  cases hfind : findConflict l B P with
  | none =>
    exact absurd hpred ((List.find?_eq_none.mp hfind) res hmem)
  | some r =>
    have hr := List.find?_some hfind
    have hrmem := List.mem_of_find?_eq_some hfind
    simp only [Bool.and_eq_true, decide_eq_true_eq] at hr
    exact ⟨r, rfl, hrmem, hr.1.1, hr.1.2, hr.2⟩

theorem findConflict_eq_none_of (l : List FileReservation) (B : String)
    (P : List String)
    (h : ∀ r ∈ l, r.status = ReservationStatus.active → r.agent_name ≠ B →
      pathsOverlap P r.paths = false) :
    findConflict l B P = none := by
  refine List.find?_eq_none.mpr fun r hr => ?_
  intro hpred
  simp only [Bool.and_eq_true, decide_eq_true_eq] at hpred
  have := h r hr hpred.1.1 hpred.2
  rw [this] at hpred
  exact Bool.false_ne_true hpred.1.2

theorem assocLookup_map_blockedBy (l : List (String × Issue))
    (cid k bid : String) :
    assocLookup (l.map fun p =>
        if p.1 = k then (p.1, { p.2 with blocked_by := p.2.blocked_by ++ [cid] })
        else p) bid =
      (assocLookup l bid).map fun b =>
        if k = bid then { b with blocked_by := b.blocked_by ++ [cid] } else b := by
  induction l with
  | nil => simp [assocLookup]
  | cons p rest ih =>
    obtain ⟨a, v⟩ := p
    by_cases hpk : a = k
    · by_cases hp : a = bid
      · have hk : k = bid := hpk.symm.trans hp
        simp [assocLookup, hpk, hp, hk]
      · have hk : ¬ k = bid := fun hh => hp (hpk.trans hh)
        simp [assocLookup, hpk, hp, hk, ih]
    · by_cases hp : a = bid
      · have hk : ¬ k = bid := fun hh => hpk (hp.trans hh.symm)
        have hbk : ¬ bid = k := fun hh => hk hh.symm
        simp [assocLookup, hpk, hp, hk, hbk]
      · simp [assocLookup, hpk, hp, ih]

theorem assocLookup_createStep (acc : List (String × Issue))
    (cid k bid : String) :
    assocLookup (createStep acc cid k) bid =
      (assocLookup acc bid).map fun b =>
        if k = bid then { b with blocked_by := b.blocked_by ++ [cid] } else b := by
  by_cases hg : (assocLookup acc k).isSome
  · rw [createStep, if_pos hg, assocLookup_map_blockedBy]
  · rw [createStep, if_neg hg]
    by_cases hk : k = bid
    · subst hk
      rw [Option.not_isSome_iff_eq_none] at hg
      simp [hg]
    · cases hb : assocLookup acc bid with
      | none => simp
      | some b => simp [hk]

theorem assocLookup_foldl_createStep (L : List String)
    (acc : List (String × Issue)) (cid bid : String) :
    assocLookup (L.foldl (fun acc2 k => createStep acc2 cid k) acc) bid =
      (assocLookup acc bid).map fun b =>
        { b with blocked_by := b.blocked_by ++ List.replicate (L.count bid) cid } := by
  induction L generalizing acc with
  | nil =>
    cases hb : assocLookup acc bid with
    | none => simp [hb]
    | some b => simp [hb]
  | cons k L2 ih =>
    rw [List.foldl_cons, ih, assocLookup_createStep, Option.map_map]
    cases hb : assocLookup acc bid with
    | none => simp [hb]
    | some b =>
      by_cases hk : k = bid
      · subst hk
        simp [hb, List.count_cons]
        rw [List.replicate_succ]
      · simp [hb, List.count_cons, hk]

/-- Claim C1: if another agent holds an active, unexpired, exclusive
reservation whose path set overlaps the requested path set `P2` under the
two-way string-prefix test, then `reserve_files` for agent `B` fails with a
conflict error identifying a blocking agent and its path set, and the state
is returned unchanged, so no reservation is added for `B`. -/
theorem reserve_files_conflict (st : MailState) (newId : String)
    (now : Timestamp) (pk B : String) (P2 : List String) (e : Bool)
    (ttl : Nat) (res : FileReservation) (hmem : res ∈ st.reservations)
    (hactive : res.status = ReservationStatus.active)
    (hunexpired : now < res.expires_at) (hexcl : res.exclusive = true)
    (hoverlap : pathsOverlap P2 res.paths = true) (hne : res.agent_name ≠ B) :
    (∃ r ∈ st.reservations,
        r.status = ReservationStatus.active ∧ r.agent_name ≠ B ∧
        pathsOverlap P2 r.paths = true ∧
        (reserve_files st newId now pk B P2 e ttl).1 =
          Except.error { agent_name := r.agent_name, paths := r.paths }) ∧
    (reserve_files st newId now pk B P2 e ttl).2 = st := by
  obtain ⟨r, hfind, hrmem, hract, hrov, hrne⟩ :=
    findConflict_eq_some_of st.reservations B P2 res hmem hactive hoverlap hne
  constructor
  · exact ⟨r, hrmem, hract, hrne, hrov, by unfold reserve_files; rw [hfind]⟩
  · unfold reserve_files; rw [hfind]

/-- Witness for C1: with `alice` holding an active exclusive reservation on
`/src/a.py`, `bob`'s overlapping request fails and adds nothing. -/
theorem reserve_files_conflict_witness :
    (∃ r ∈ stW1.reservations,
        r.status = ReservationStatus.active ∧ r.agent_name ≠ "bob" ∧
        pathsOverlap ["/src/a.py", "/src/b.py"] r.paths = true ∧
        (reserve_files stW1 "r2" 5 "p" "bob" ["/src/a.py", "/src/b.py"] true
            3600).1 =
          Except.error { agent_name := r.agent_name, paths := r.paths }) ∧
    (reserve_files stW1 "r2" 5 "p" "bob" ["/src/a.py", "/src/b.py"] true
        3600).2 = stW1 :=
  reserve_files_conflict stW1 "r2" 5 "p" "bob" ["/src/a.py", "/src/b.py"]
    true 3600 resW (by decide) (by decide) (by decide) (by decide) (by decide)
    (by decide)

/-- Claim C10: the conflict check of `reserve_files` is insensitive to the
`exclusive` flags and to `project_key`: an active reservation of another
agent with overlapping paths blocks the request with no hypothesis on the
reservation's `exclusive` flag or `project_key`, and for every requested
`project_key` and `exclusive` flag. -/
theorem reserve_files_conflict_ignores_exclusive_project (st : MailState)
    (newId : String) (now : Timestamp) (B : String) (P2 : List String)
    (res : FileReservation) (hmem : res ∈ st.reservations)
    (hactive : res.status = ReservationStatus.active)
    (hoverlap : pathsOverlap P2 res.paths = true) (hne : res.agent_name ≠ B) :
    ∀ (pk2 : String) (e2 : Bool) (ttl : Nat),
      ∃ err, (reserve_files st newId now pk2 B P2 e2 ttl).1 =
          Except.error err ∧
        (reserve_files st newId now pk2 B P2 e2 ttl).2 = st := by
  intro pk2 e2 ttl
  obtain ⟨r, hfind, hrmem, hract, hrov, hrne⟩ :=
    findConflict_eq_some_of st.reservations B P2 res hmem hactive hoverlap hne
  exact ⟨{ agent_name := r.agent_name, paths := r.paths },
    by unfold reserve_files; rw [hfind], by unfold reserve_files; rw [hfind]⟩

/-- Witness for C10: `alice`'s reservation is non-exclusive and lives in
project `q`, `bob` requests non-exclusively in project `other`; the request
still fails with a conflict. -/
theorem reserve_files_conflict_ignores_exclusive_project_witness :
    ∃ err, (reserve_files stW10 "r2" 5 "other" "bob" ["/src/a.py"] false
        60).1 = Except.error err ∧
      (reserve_files stW10 "r2" 5 "other" "bob" ["/src/a.py"] false 60).2 =
        stW10 :=
  reserve_files_conflict_ignores_exclusive_project stW10 "r2" 5 "bob"
    ["/src/a.py"] resX (by decide) (by decide) (by decide) (by decide)
    "other" false 60

/-- Claim C2: a reservation whose `expires_at` has passed is excluded from
the result of `get_active_reservations` for its project, which flips its
status to `expired` as a side effect, and afterwards an overlapping
`reserve_files` by a different agent succeeds (provided, as in the claim's
scenario, every potential blocker in the store is such a lazily expirable
reservation): an expired reservation does not block a new overlapping
reservation. -/
theorem lazy_expiry_unblocks (st : MailState) (now now2 : Timestamp)
    (res : FileReservation) (hmem : res ∈ st.reservations)
    (hactive : res.status = ReservationStatus.active)
    (hpast : res.expires_at ≤ now) (newId pk2 B : String)
    (P2 : List String) (e : Bool) (ttl : Nat) (hB : res.agent_name ≠ B)
    (hall : ∀ r ∈ st.reservations, r.status = ReservationStatus.active →
      r.agent_name ≠ B → pathsOverlap P2 r.paths = true →
      r.project_key = res.project_key ∧ r.expires_at ≤ now) :
    res ∉ (get_active_reservations st now res.project_key).1 ∧
    { res with status := ReservationStatus.expired } ∈
      ((get_active_reservations st now res.project_key).2).reservations ∧
    ∃ r, (reserve_files (get_active_reservations st now res.project_key).2
        newId now2 pk2 B P2 e ttl).1 = Except.ok r := by
  refine ⟨?_, ?_, ?_⟩
  · intro hin
    have := List.mem_filter.mp hin
    simp only [Bool.and_eq_true, decide_eq_true_eq] at this
    exact absurd this.2.2 (Nat.not_lt.mpr hpast)
  · simp only [get_active_reservations]
    refine List.mem_map.mpr ⟨res, hmem, ?_⟩
    rw [if_pos ⟨rfl, hactive, Nat.not_lt.mpr hpast⟩]
  · have hnone : findConflict
        ((get_active_reservations st now res.project_key).2).reservations B
          P2 = none := by
      refine findConflict_eq_none_of _ B P2 fun x hx hxact hxne => ?_
      simp only [get_active_reservations, List.mem_map] at hx
      obtain ⟨r, hr, hmap⟩ := hx
      by_cases hcond : r.project_key = res.project_key ∧
          r.status = ReservationStatus.active ∧ ¬ now < r.expires_at
      · rw [if_pos hcond] at hmap
        rw [← hmap] at hxact
        exact absurd hxact (by simp)
      · rw [if_neg hcond] at hmap
        subst hmap
        by_contra hov
        rw [Bool.not_eq_false] at hov
        obtain ⟨hproj, hexp⟩ := hall r hr hxact hxne hov
        exact hcond ⟨hproj, hxact, Nat.not_lt.mpr hexp⟩
    refine ⟨{ id := newId, project_key := pk2, agent_name := B, paths := P2,
              exclusive := e, status := ReservationStatus.active,
              created_at := now2, expires_at := now2 + ttl,
              ttl_seconds := ttl }, ?_⟩
    unfold reserve_files
    rw [hnone]

/-- Witness for C2: `alice`'s reservation on `/src/a.py` expired at time 5;
at time 5 the sweep excludes and flips it, and `bob`'s overlapping request
then succeeds. -/
theorem lazy_expiry_unblocks_witness :
    resP ∉ (get_active_reservations stW2 5 resP.project_key).1 ∧
    { resP with status := ReservationStatus.expired } ∈
      ((get_active_reservations stW2 5 resP.project_key).2).reservations ∧
    ∃ r, (reserve_files (get_active_reservations stW2 5 resP.project_key).2
        "r2" 5 "p" "bob" ["/src/a.py"] true 3600).1 = Except.ok r :=
  lazy_expiry_unblocks stW2 5 5 resP (by decide) (by decide) (by decide)
    "r2" "p" "bob" ["/src/a.py"] true 3600 (by decide) (by decide)

/-- Counterexample to claim C3: registering `alice` (fresh id `id1`, time 10)
and then re-registering `alice` (fresh id `id2`, time 20) returns an agent
whose id differs from the first registration's id and whose `registered_at`
has been reset to the second registration time. -/
theorem register_agent_not_idempotent_cex :
    ((register_agent
        (register_agent st0 "id1" 10 "alice" "proj" "claude" "opus" none).2
        "id2" 20 "alice" "proj" "claude" "opus" none).1.id ≠
      (register_agent st0 "id1" 10 "alice" "proj" "claude" "opus"
        none).1.id) ∧
    ((register_agent
        (register_agent st0 "id1" 10 "alice" "proj" "claude" "opus" none).2
        "id2" 20 "alice" "proj" "claude" "opus" none).1.registered_at ≠
      (register_agent st0 "id1" 10 "alice" "proj" "claude" "opus"
        none).1.registered_at) := by
  decide

/-- Claim C3 (amended): re-registering a name overwrites program, model and
capabilities, but the returned agent is a freshly constructed one — it
carries the newly generated id, and both `registered_at` and `last_active`
are set to the current time (so id and `registered_at` are not preserved);
the registry maps the name to this new agent. -/
theorem register_agent_overwrites (st : MailState) (newId : String)
    (now : Timestamp) (name pk prog mdl : String)
    (caps : Option (List String)) :
    (register_agent st newId now name pk prog mdl caps).1.id = newId ∧
    (register_agent st newId now name pk prog mdl caps).1.program = prog ∧
    (register_agent st newId now name pk prog mdl caps).1.model = mdl ∧
    (register_agent st newId now name pk prog mdl caps).1.capabilities =
      caps.getD [] ∧
    (register_agent st newId now name pk prog mdl caps).1.registered_at =
      now ∧
    (register_agent st newId now name pk prog mdl caps).1.last_active = now ∧
    assocLookup (register_agent st newId now name pk prog mdl caps).2.agents
        name =
      some (register_agent st newId now name pk prog mdl caps).1 := by
  refine ⟨rfl, rfl, rfl, rfl, rfl, rfl, ?_⟩
  exact assocLookup_assocInsert_self st.agents name _

/-- Counterexample to claim C4: `register_agent` with an empty name does not
fail — it returns an agent named `""` and adds it to the registry. -/
theorem register_agent_empty_name_cex :
    (register_agent st0 "id1" 0 "" "proj" "claude" "opus" none).1.name =
      "" ∧
    assocLookup (register_agent st0 "id1" 0 "" "proj" "claude" "opus"
        none).2.agents "" =
      some (register_agent st0 "id1" 0 "" "proj" "claude" "opus" none).1 := by
  decide

/-- Claim C4 (amended): `register_agent` performs no validation of the name:
a call with an empty name succeeds, returning an agent whose name is empty
and adding it to the registry. -/
theorem register_agent_accepts_empty_name (st : MailState) (newId : String)
    (now : Timestamp) (pk prog mdl : String) (caps : Option (List String)) :
    (register_agent st newId now "" pk prog mdl caps).1.name = "" ∧
    assocLookup (register_agent st newId now "" pk prog mdl caps).2.agents ""
      = some (register_agent st newId now "" pk prog mdl caps).1 :=
  ⟨rfl, assocLookup_assocInsert_self st.agents "" _⟩

/-- Counterexample to claim C5: sending with no caller-supplied `thread_id`
(message id `m1`, fresh default thread id `t1`) yields a message whose
`thread_id` is `t1`, not the message's own id `m1`. -/
theorem send_message_thread_cex :
    (send_message st0 "m1" "t1" 0 "proj" "alice" "bob" "s" "b" none).1.id =
      "m1" ∧
    (send_message st0 "m1" "t1" 0 "proj" "alice" "bob" "s" "b"
        none).1.thread_id = some "t1" ∧
    (send_message st0 "m1" "t1" 0 "proj" "alice" "bob" "s" "b"
        none).1.thread_id ≠
      some (send_message st0 "m1" "t1" 0 "proj" "alice" "bob" "s" "b"
        none).1.id := by
  decide

/-- Claim C5 (amended): when the caller supplies no `thread_id`, the created
message's `thread_id` is a separately generated fresh id, which (fresh ids
being distinct) differs from the message's own id; it does not equal the
message's id. -/
theorem send_message_default_thread (st : MailState)
    (newMsgId newThreadId : String) (now : Timestamp)
    (pk sender recipient subject body : String)
    (hfresh : newThreadId ≠ newMsgId) :
    (send_message st newMsgId newThreadId now pk sender recipient subject
        body none).1.id = newMsgId ∧
    (send_message st newMsgId newThreadId now pk sender recipient subject
        body none).1.thread_id = some newThreadId ∧
    (send_message st newMsgId newThreadId now pk sender recipient subject
        body none).1.thread_id ≠
      some (send_message st newMsgId newThreadId now pk sender recipient
        subject body none).1.id := by
  refine ⟨rfl, rfl, ?_⟩
  intro h
  exact hfresh (Option.some_injective _ h)

/-- Witness for the amended C5 at concrete fresh ids. -/
theorem send_message_default_thread_witness :
    (send_message st0 "m1" "t1" 0 "proj" "alice" "bob" "s" "b"
        none).1.thread_id ≠
      some (send_message st0 "m1" "t1" 0 "proj" "alice" "bob" "s" "b"
        none).1.id :=
  (send_message_default_thread st0 "m1" "t1" 0 "proj" "alice" "bob" "s" "b"
    (by decide)).2.2

/-- Claim C6: `fetch_inbox agent (some T)` returns exactly the agent's inbox
messages with `created_at ≥ T` (a permutation of that filtered inbox), in
decreasing `created_at` order, with equal-`created_at` messages kept in their
insertion order (the sublist at any fixed timestamp equals the filtered
inbox's sublist at that timestamp); with no `since` argument it returns all
of the agent's messages in that order. -/
theorem fetch_inbox_spec (st : MailState) (a : String) (T : Timestamp) :
    ((fetch_inbox st a (some T)).Perm
        ((inboxOf st a).filter fun m => decide (T ≤ m.created_at)) ∧
      (fetch_inbox st a (some T)).Pairwise
        (fun x y => y.created_at ≤ x.created_at) ∧
      ∀ t, (fetch_inbox st a (some T)).filter
          (fun m => decide (m.created_at = t)) =
        ((inboxOf st a).filter fun m => decide (T ≤ m.created_at)).filter
          fun m => decide (m.created_at = t)) ∧
    ((fetch_inbox st a none).Perm (inboxOf st a) ∧
      (fetch_inbox st a none).Pairwise
        (fun x y => y.created_at ≤ x.created_at) ∧
      ∀ t, (fetch_inbox st a none).filter
          (fun m => decide (m.created_at = t)) =
        (inboxOf st a).filter fun m => decide (m.created_at = t)) := by
  refine ⟨⟨?_, ?_, ?_⟩, ?_, ?_, ?_⟩
  · exact perm_sortDesc _
  · exact pairwise_sortDesc _
  · intro t
    exact filter_sortDesc t _
  · exact perm_sortDesc _
  · exact pairwise_sortDesc _
  · intro t
    exact filter_sortDesc t _

/-- Claim C7: `create_issue` with blocking list `L` appends the new issue's
id to the `blocked_by` of every issue of `L` that exists in the store (once
per occurrence in `L`), leaves entries for non-existent ids absent (no edge,
never retroactively linked), and stores the new issue; in particular the
bidirectional invariant holds: for every `bid` in the new issue's `blocking`
that existed in the store, the new id is in that issue's `blocked_by`. -/
theorem create_issue_blocked_by (st : BeadsState) (newId : String)
    (now : Timestamp) (title description priority : String)
    (parent_id : Option String) (blocking : List String) :
    (create_issue st newId now title description priority parent_id
        (some blocking)).1.id = newId ∧
    (create_issue st newId now title description priority parent_id
        (some blocking)).1.blocking = blocking ∧
    assocLookup (create_issue st newId now title description priority
        parent_id (some blocking)).2.issues newId =
      some (create_issue st newId now title description priority parent_id
        (some blocking)).1 ∧
    (∀ bid, bid ≠ newId →
      assocLookup (create_issue st newId now title description priority
          parent_id (some blocking)).2.issues bid =
        (assocLookup st.issues bid).map fun b =>
          { b with blocked_by := b.blocked_by ++
              List.replicate (blocking.count bid) newId }) ∧
    (∀ bid ∈ blocking, bid ≠ newId →
      ∀ b, assocLookup st.issues bid = some b →
        ∃ b2, assocLookup (create_issue st newId now title description
            priority parent_id (some blocking)).2.issues bid = some b2 ∧
          newId ∈ b2.blocked_by) := by
  have hkey : ∀ bid, bid ≠ newId →
      assocLookup (create_issue st newId now title description priority
          parent_id (some blocking)).2.issues bid =
        (assocLookup st.issues bid).map fun b =>
          { b with blocked_by := b.blocked_by ++
              List.replicate (blocking.count bid) newId } := by
    intro bid hbid
    show assocLookup (assocInsert _ newId _) bid = _
    rw [assocLookup_assocInsert_ne _ _ _ _ hbid,
      assocLookup_foldl_createStep]
    rfl
  refine ⟨rfl, rfl, ?_, hkey, ?_⟩
  · exact assocLookup_assocInsert_self _ newId _
  · intro bid hbidmem hbidne b hb
    have hmap := hkey bid hbidne
    rw [hb] at hmap
    refine ⟨_, hmap, ?_⟩
    refine List.mem_append.mpr (Or.inr ?_)
    refine List.mem_replicate.mpr ⟨?_, rfl⟩
    intro h0
    exact List.count_eq_zero.mp h0 hbidmem

/-- Witness for C7: creating `c1` blocking the existing issue `b1` makes
`b1.blocked_by` contain `c1`. -/
theorem create_issue_blocked_by_witness :
    ∃ b2, assocLookup (create_issue stB7 "c1" 1 "child" "" "medium" none
        (some ["b1"])).2.issues "b1" = some b2 ∧ "c1" ∈ b2.blocked_by :=
  (create_issue_blocked_by stB7 "c1" 1 "child" "" "medium" none
    ["b1"]).2.2.2.2 "b1" (by decide) (by decide) issueB (by decide)

/-- Claim C8: an issue of the store is included in `get_ready_issues` if and
only if its status is `ready` and either its `blocked_by` list is empty or
every `blocked_by` id that exists in the store refers to a `done` issue
(ids that were never created are vacuously satisfied). -/
theorem get_ready_issues_spec (st : BeadsState) (issue : Issue)
    (hmem : issue ∈ st.issues.map Prod.snd) :
    issue ∈ get_ready_issues st ↔
      issue.status = IssueStatus.ready ∧
        (issue.blocked_by = [] ∨
          ∀ bid ∈ issue.blocked_by, ∀ b,
            assocLookup st.issues bid = some b →
              b.status = IssueStatus.done) := by
  unfold get_ready_issues
  rw [List.mem_filter]
  constructor
  · rintro ⟨-, hp⟩
    simp only [Bool.and_eq_true, decide_eq_true_eq] at hp
    refine ⟨hp.1, ?_⟩
    by_cases hempty : issue.blocked_by = []
    · exact Or.inl hempty
    · right
      have hall := hp.2
      rw [if_neg (by simp [List.isEmpty_eq_false, hempty]),
        List.all_eq_true] at hall
      intro bid hbid b hb
      have := hall bid hbid
      rw [hb] at this
      exact decide_eq_true_eq.mp this
  · rintro ⟨hready, hcond⟩
    refine ⟨hmem, ?_⟩
    simp only [Bool.and_eq_true, decide_eq_true_eq]
    refine ⟨hready, ?_⟩
    by_cases hempty : issue.blocked_by = []
    · rw [if_pos (by simp [hempty])]
    · rw [if_neg (by simp [List.isEmpty_eq_false, hempty]),
        List.all_eq_true]
      intro bid hbid
      cases hlook : assocLookup st.issues bid with
      | none => rfl
      | some b =>
        rcases hcond with hcond | hcond
        · exact absurd hcond hempty
        · exact decide_eq_true_eq.mpr (hcond bid hbid b hlook)

/-- Witness for C8: the unblocked ready issue `i1` is in the ready set. -/
theorem get_ready_issues_spec_witness :
    issueR ∈ get_ready_issues stB8 :=
  (get_ready_issues_spec stB8 issueR (by decide)).mpr ⟨rfl, Or.inl rfl⟩

theorem appliedUpdate_fields (issue : Issue) (now : Timestamp)
    (status : Option IssueStatus) (assignee priority : Option String) :
    (appliedUpdate issue now status assignee priority).id = issue.id ∧
    (appliedUpdate issue now status assignee priority).title = issue.title ∧
    (appliedUpdate issue now status assignee priority).description =
      issue.description ∧
    (appliedUpdate issue now status assignee priority).parent_id =
      issue.parent_id ∧
    (appliedUpdate issue now status assignee priority).blocking =
      issue.blocking ∧
    (appliedUpdate issue now status assignee priority).blocked_by =
      issue.blocked_by ∧
    (appliedUpdate issue now status assignee priority).created_at =
      issue.created_at ∧
    (appliedUpdate issue now status assignee priority).updated_at = now ∧
    (appliedUpdate issue now status assignee priority).status =
      status.getD issue.status ∧
    (appliedUpdate issue now status assignee priority).assignee =
      (if strTruthy assignee then assignee else issue.assignee) ∧
    (appliedUpdate issue now status assignee priority).priority =
      (if strTruthy priority then priority.getD issue.priority
       else issue.priority) := by
  cases status <;> cases assignee <;> cases priority <;>
    simp only [appliedUpdate, strTruthy, Option.getD] <;>
    split_ifs <;> simp_all

/-- Claim C9: for an unknown id, `update_issue` returns the not-found signal
(`none`) and leaves the store completely unchanged; for a known id it
returns the issue with exactly the supplied (truthy) fields among status,
assignee and priority mutated, `updated_at` bumped to the current time, all
other fields preserved, the store entry for that id replaced by the mutated
issue, and every other entry untouched. -/
theorem update_issue_spec (st : BeadsState) (now : Timestamp)
    (issue_id : String) (status : Option IssueStatus)
    (assignee priority : Option String) :
    (assocLookup st.issues issue_id = none →
      update_issue st now issue_id status assignee priority = (none, st)) ∧
    (∀ issue, assocLookup st.issues issue_id = some issue →
      ∃ issue2,
        (update_issue st now issue_id status assignee priority).1 =
          some issue2 ∧
        issue2.id = issue.id ∧
        issue2.title = issue.title ∧
        issue2.description = issue.description ∧
        issue2.parent_id = issue.parent_id ∧
        issue2.blocking = issue.blocking ∧
        issue2.blocked_by = issue.blocked_by ∧
        issue2.created_at = issue.created_at ∧
        issue2.updated_at = now ∧
        issue2.status = status.getD issue.status ∧
        issue2.assignee =
          (if strTruthy assignee then assignee else issue.assignee) ∧
        issue2.priority =
          (if strTruthy priority then priority.getD issue.priority
           else issue.priority) ∧
        assocLookup (update_issue st now issue_id status assignee
            priority).2.issues issue_id = some issue2 ∧
        (∀ k, k ≠ issue_id →
          assocLookup (update_issue st now issue_id status assignee
              priority).2.issues k = assocLookup st.issues k)) := by
  constructor
  · intro h
    unfold update_issue
    rw [h]
  · intro issue h
    refine ⟨appliedUpdate issue now status assignee priority,
      ?_, (appliedUpdate_fields issue now status assignee priority).1,
      (appliedUpdate_fields issue now status assignee priority).2.1,
      (appliedUpdate_fields issue now status assignee priority).2.2.1,
      (appliedUpdate_fields issue now status assignee priority).2.2.2.1,
      (appliedUpdate_fields issue now status assignee priority).2.2.2.2.1,
      (appliedUpdate_fields issue now status assignee
        priority).2.2.2.2.2.1,
      (appliedUpdate_fields issue now status assignee
        priority).2.2.2.2.2.2.1,
      (appliedUpdate_fields issue now status assignee
        priority).2.2.2.2.2.2.2.1,
      (appliedUpdate_fields issue now status assignee
        priority).2.2.2.2.2.2.2.2.1,
      (appliedUpdate_fields issue now status assignee
        priority).2.2.2.2.2.2.2.2.2.1,
      (appliedUpdate_fields issue now status assignee
        priority).2.2.2.2.2.2.2.2.2.2,
      ?_, ?_⟩
    · unfold update_issue
      rw [h]
    · unfold update_issue
      rw [h]
      exact assocLookup_assocInsert_self st.issues issue_id _
    · intro k hk
      unfold update_issue
      rw [h]
      exact assocLookup_assocInsert_ne st.issues issue_id k _ hk

/-- Witness for C9: the unknown id `zz` leaves the one-issue store `stB8`
unchanged, and updating the known issue `i1` mutates it as described. -/
theorem update_issue_spec_witness :
    update_issue stB8 7 "zz" none none none = (none, stB8) ∧
    ∃ issue2,
      (update_issue stB8 7 "i1" (some IssueStatus.done) none
          (some "high")).1 = some issue2 ∧
      issue2.id = issueR.id ∧
      issue2.title = issueR.title ∧
      issue2.description = issueR.description ∧
      issue2.parent_id = issueR.parent_id ∧
      issue2.blocking = issueR.blocking ∧
      issue2.blocked_by = issueR.blocked_by ∧
      issue2.created_at = issueR.created_at ∧
      issue2.updated_at = 7 ∧
      issue2.status = (some IssueStatus.done).getD issueR.status ∧
      issue2.assignee =
        (if strTruthy none then none else issueR.assignee) ∧
      issue2.priority =
        (if strTruthy (some "high") then (some "high").getD issueR.priority
         else issueR.priority) ∧
      assocLookup (update_issue stB8 7 "i1" (some IssueStatus.done) none
          (some "high")).2.issues "i1" = some issue2 ∧
      (∀ k, k ≠ "i1" →
        assocLookup (update_issue stB8 7 "i1" (some IssueStatus.done) none
            (some "high")).2.issues k = assocLookup stB8.issues k) :=
  ⟨(update_issue_spec stB8 7 "zz" none none none).1 rfl,
    (update_issue_spec stB8 7 "i1" (some IssueStatus.done) none
      (some "high")).2 issueR rfl⟩
